import Mathlib

/-!
Verification of the Stock-Portfolio-Management repository's portfolio
accounting engine against its specification.

The embedding models `stock_management/models/user_profile_model.py`,
`stock_management/models/mongo_session_model.py` and
`stock_management/models/stock_model.py`.

The SQLite tables behind `UserProfile` are modelled per user: the active
rows of the `portfolio` table (the rows with `deleted = 0`, which is the
filter every SELECT in the source applies) become an association list
`symbol -> quantity`, and the user's `users.cash_balance` cell becomes a
rational field.  A `raise` in the Python source becomes an `Except.error`
result; since the source raises before executing any UPDATE in every
failure path modelled here (and the sqlite3 connection context manager
rolls back on an exception), an `Except.error` result corresponds to a
run that leaves the stored state unchanged.

Python floats are modelled as rationals; stock quantities are modelled as
integers (Python ints).
-/

namespace StockTrading

/-- The error taxonomy surfaced by the ledger.  Each constructor stands for
one family of `ValueError` messages raised by the source:
`invalidArgument` for "Quantity must be greater than 0." /
"Quantity must be at least 1.", `notFound s` for
"Stock {s} does not exist in holdings.", `insufficientQuantity q cur` for
"Cannot remove {q} shares. Only {cur} shares available.",
`insufficientFunds` for "Insufficient funds to buy the stock.", and
`notEnoughShares` for "Not enough shares to sell." -/
inductive LedgerError where
  | invalidArgument : LedgerError
  | notFound : String → LedgerError
  | insufficientQuantity : Int → Int → LedgerError
  | insufficientFunds : LedgerError
  | notEnoughShares : LedgerError
deriving DecidableEq, Repr

/-- The active (`deleted = 0`) rows of the `portfolio` table for one user:
pairs `(stock_symbol, quantity)`. -/
abbrev Portfolio := List (String × Int)

/-- `SELECT quantity FROM portfolio WHERE user_id = ? AND stock_symbol = ? AND deleted = 0`
followed by `fetchone()`: the quantity of the first active row for the symbol. -/
def lookupQty : Portfolio → String → Option Int
  | [], _ => none
  | e :: rest, s => if e.1 = s then some e.2 else lookupQty rest s

/-- The per-user state behind `UserProfile`: the `users.cash_balance` cell
and the user's active portfolio rows. -/
structure UserProfile where
  cash_balance : ℚ
  portfolio : Portfolio
deriving DecidableEq, Repr

/-- `UserProfile.get_portfolio`: the mapping of held symbols to quantities
(the source builds the dict `{row[0]: row[1]}` over the active rows). -/
def get_portfolio (u : UserProfile) : Portfolio :=
  u.portfolio

/-- `UserProfile.add_stock_to_portfolio(user_id, symbol, quantity)`:
raises when `quantity <= 0`; if an active row exists (first row's quantity
`q0`), `UPDATE portfolio SET quantity = q0 + quantity` over the symbol's
rows; otherwise `INSERT` a fresh row.  No price parameter exists and no
average cost is stored — holdings are quantities only. -/
def add_stock_to_portfolio (p : Portfolio) (symbol : String) (quantity : Int) :
    Except LedgerError Portfolio :=
  if quantity ≤ 0 then .error .invalidArgument
  else
    match lookupQty p symbol with
    | some q0 =>
        .ok (List.map (fun e => if e.1 = symbol then (e.1, q0 + quantity) else e) p)
    | none => .ok (p ++ [(symbol, quantity)])

/-- `UserProfile.remove_stock_from_holding(symbol, quantity)`:
raises when `quantity < 1`; raises NotFound when no active row exists;
raises when `quantity > current_quantity`; deletes the symbol's rows
(`SET deleted = 1`) when `quantity == current_quantity`; otherwise
decrements (`SET quantity = quantity - ?`) the symbol's rows. -/
def remove_stock_from_holding (p : Portfolio) (symbol : String) (quantity : Int) :
    Except LedgerError Portfolio :=
  if quantity < 1 then .error .invalidArgument
  else
    match lookupQty p symbol with
    | none => .error (.notFound symbol)
    | some cur =>
        if cur < quantity then .error (.insufficientQuantity quantity cur)
        else if quantity = cur then .ok (List.filter (fun e => e.1 != symbol) p)
        else .ok (List.map (fun e => if e.1 = symbol then (e.1, e.2 - quantity) else e) p)

/-- `UserProfile.update_cash_balance(amount)`:
`UPDATE users SET cash_balance = cash_balance + ?` — unconditional, with no
balance check of any kind in the source. -/
def update_cash_balance (u : UserProfile) (amount : ℚ) : UserProfile :=
  { u with cash_balance := u.cash_balance + amount }

/-- `UserProfile.buy_stock(symbol, quantity)`: raises when `quantity < 1`;
`stock_price` is the value fetched from the quote client (passed here as an
argument); `total_cost = stock_price * quantity`; raises InsufficientFunds
when `cash_balance < total_cost` (this check precedes every UPDATE);
otherwise debits cash and adds the stock to the portfolio. -/
def buy_stock (u : UserProfile) (symbol : String) (quantity : Int) (stock_price : ℚ) :
    Except LedgerError UserProfile :=
  if quantity < 1 then .error .invalidArgument
  else
    let total_cost := stock_price * (quantity : ℚ)
    if u.cash_balance < total_cost then .error .insufficientFunds
    else
      match add_stock_to_portfolio u.portfolio symbol quantity with
      | .ok p => .ok ⟨u.cash_balance - total_cost, p⟩
      | .error e => .error e

/-- `UserProfile.sell_stock(symbol, quantity)`: raises when `quantity < 1`;
`total_revenue = stock_price * quantity`; raises when no active row exists
or the held quantity is below `quantity` ("Not enough shares to sell.");
otherwise removes the shares and credits cash. -/
def sell_stock (u : UserProfile) (symbol : String) (quantity : Int) (stock_price : ℚ) :
    Except LedgerError UserProfile :=
  if quantity < 1 then .error .invalidArgument
  else
    let total_revenue := stock_price * (quantity : ℚ)
    match lookupQty u.portfolio symbol with
    | none => .error .notEnoughShares
    | some cur =>
        if cur < quantity then .error .notEnoughShares
        else
          match remove_stock_from_holding u.portfolio symbol quantity with
          | .ok p => .ok ⟨u.cash_balance + total_revenue, p⟩
          | .error e => .error e

/-- `UserProfile.clear_all_stock()`:
`UPDATE portfolio SET deleted = 1 WHERE user_id = ?` — every active row is
deleted; the `users` table (cash) is not touched. -/
def clear_all_stock (u : UserProfile) : UserProfile :=
  { u with portfolio := [] }

/-- One ledger operation, with any quote-client price the operation consumes
supplied as data (the source fetches it once via `get_stock_price` before
touching the database). -/
inductive LedgerOp where
  | addStock : String → Int → LedgerOp
  | removeStock : String → Int → LedgerOp
  | updateCash : ℚ → LedgerOp
  | buy : String → Int → ℚ → LedgerOp
  | sell : String → Int → ℚ → LedgerOp
  | clear : LedgerOp

/-- Run one ledger operation on a user state. -/
def applyOp (u : UserProfile) : LedgerOp → Except LedgerError UserProfile
  | .addStock s q => (add_stock_to_portfolio u.portfolio s q).map fun p => { u with portfolio := p }
  | .removeStock s q => (remove_stock_from_holding u.portfolio s q).map fun p => { u with portfolio := p }
  | .updateCash a => .ok (update_cash_balance u a)
  | .buy s q pr => buy_stock u s q pr
  | .sell s q pr => sell_stock u s q pr
  | .clear => .ok (clear_all_stock u)

/-- The MongoDB session document of one user
(`{"user_id": ..., "current_stock_holding": {...}, "cash_balance": ...}`). -/
structure SessionDoc where
  current_stock_holding : Portfolio
  cash_balance : ℚ
deriving DecidableEq, Repr

/-- Modelled from the spec: `UserProfile.add_stock_to_holding(symbol, quantity)`,
called by `login_user`, belongs to the in-memory revision of `UserProfile`
that is not under src (only its tests and this caller are).  Per the spec's
snapshot-import contract ("reconstructs a Ledger from the same shape") and
the add effect ("if symbol absent, insert; if present, add to the existing
quantity"), it inserts the symbol or increments its quantity; no cash
effect. -/
def add_stock_to_holding (u : UserProfile) (symbol : String) (quantity : Int) : UserProfile :=
  { u with
    portfolio :=
      match lookupQty u.portfolio symbol with
      | some q0 =>
          List.map (fun e => if e.1 = symbol then (e.1, q0 + quantity) else e) u.portfolio
      | none => u.portfolio ++ [(symbol, quantity)] }

/-- `mongo_session_model.login_user(user_id, user_profile_model)` for one
user: if a session document exists, clear the profile's stocks, load each
stored `(symbol, quantity)` via `add_stock_to_holding`, and apply
`update_cash_balance` with the stored balance; otherwise insert a fresh
empty session document.  Returns the (store, profile) pair after the call. -/
def login_user (store : Option SessionDoc) (profile : UserProfile) :
    Option SessionDoc × UserProfile :=
  match store with
  | some session =>
      let cleared := clear_all_stock profile
      let loaded := session.current_stock_holding.foldl
        (fun acc e => add_stock_to_holding acc e.1 e.2) cleared
      (store, update_cash_balance loaded session.cash_balance)
  | none => (some ⟨[], 0⟩, profile)

/-- `mongo_session_model.logout_user(user_id, user_profile_model)` for one
user: store `get_portfolio()` and `cash_balance` into the user's session
document (`upsert=False`: fails with ValueError when no document matches),
then clear the profile's stocks. -/
def logout_user (store : Option SessionDoc) (profile : UserProfile) :
    Except String (Option SessionDoc × UserProfile) :=
  match store with
  | some _ =>
      .ok (some ⟨get_portfolio profile, profile.cash_balance⟩, clear_all_stock profile)
  | none => .error "User not found for logout."

/-- `stock_model.Stock`: symbol, name, price, daily price change and P/E
ratio. -/
structure Stock where
  symbol : String
  name : String
  price : ℚ
  price_change : ℚ
  pe_ratio : ℚ
deriving DecidableEq, Repr

/-- Constructing a `Stock`, running the checks of `Stock.__post_init__` in
source order: each negative field raises ValueError. -/
def Stock.make (symbol name : String) (price price_change pe_ratio : ℚ) :
    Except String Stock :=
  if price < 0 then .error "Price must be non-negative"
  else if price_change < 0 then .error "Price change must be non-negative"
  else if pe_ratio < 0 then .error "P E ratio must be non-negative"
  else .ok ⟨symbol, name, price, price_change, pe_ratio⟩

/-- One day's raw fields inside the upstream "Time Series (Daily)" JSON
object; any field may be missing (`daily_data.get(..., "N/A")` in the
source supplies the default). -/
structure DailyRaw where
  openField : Option String
  highField : Option String
  lowField : Option String
  closeField : Option String
  volumeField : Option String
deriving DecidableEq, Repr

/-- The upstream Alpha Vantage response consumed by
`fetch_historical_data`: HTTP status code, whether the JSON body contains
an "Error Message" key (the source's invalid-symbol signal), and the
"Time Series (Daily)" object as an insertion-ordered list of
`(date, fields)` pairs (absent key = empty list). -/
structure ApiResponse where
  status_code : Int
  has_error_message : Bool
  time_series : List (String × DailyRaw)
deriving DecidableEq, Repr

/-- One record of the list returned by `fetch_historical_data`. -/
structure HistoricalRecord where
  date : String
  openPrice : String
  closePrice : String
  high : String
  low : String
  volume : String
deriving DecidableEq, Repr

/-- Lexicographic (code-point) comparison of character lists: the order
Python uses for `str` comparison. -/
def charsLe : List Char → List Char → Bool
  | [], _ => true
  | _ :: _, [] => false
  | c :: cs, d :: ds =>
      if c.toNat < d.toNat then true
      else if d.toNat < c.toNat then false
      else charsLe cs ds

/-- Python's `a <= b` on strings: lexicographic by code point. -/
def strLe (a b : String) : Bool :=
  charsLe a.data b.data

/-- Build one output record from one upstream day
(`historical_data.append({...})` in the source). -/
def mkHistoricalRecord (e : String × DailyRaw) : HistoricalRecord :=
  ⟨e.1, e.2.openField.getD "N/A", e.2.closeField.getD "N/A",
    e.2.highField.getD "N/A", e.2.lowField.getD "N/A", e.2.volumeField.getD "N/A"⟩

/-- `stock_model.fetch_historical_data(symbol, start_date, end_date)`.
`dateOk` models success of `datetime.strptime(date, "%Y-%m-%d")` (the
external library call validating the YYYY-MM-DD format); `resp` models the
upstream HTTP response.  Source order: date validation, HTTP status check,
"Error Message" (invalid symbol) check, empty-series check, then the
`start_date <= date <= end_date` filter over the series (Python compares
the date strings lexicographically — `strLe` here). -/
def fetch_historical_data (dateOk : String → Bool) (symbol start_date end_date : String)
    (resp : ApiResponse) : Except String (List HistoricalRecord) :=
  if ¬ (dateOk start_date && dateOk end_date) then
    .error "The date format you provided is invalid. Please use YYYY-MM-DD."
  else if resp.status_code ≠ 200 then
    .error "API request failed."
  else if resp.has_error_message then
    .error ("The stock symbol: " ++ symbol ++ " is invalid. Please check the symbol again.")
  else if resp.time_series.isEmpty then
    .error ("No historical data found for the stock symbol: " ++ symbol ++ ".")
  else
    .ok ((resp.time_series.filter
      (fun e => strLe start_date e.1 && strLe e.1 end_date)).map mkHistoricalRecord)

/-- Key-distinctness of the active portfolio rows (the source creates an
active row only when none exists, so one active row per symbol). -/
def HoldingKeysNodup (p : Portfolio) : Prop :=
  (p.map Prod.fst).Nodup

/-- Every active holding row has a positive quantity. -/
def HoldingsPositive (p : Portfolio) : Prop :=
  ∀ e ∈ p, 0 < e.2

/-- The ledger invariant of the spec's data model: a symbol is present in
holdings iff its quantity is positive (in this map embedding: every present
entry has a positive quantity and each symbol has at most one entry). -/
def LedgerInv (u : UserProfile) : Prop :=
  HoldingKeysNodup u.portfolio ∧ HoldingsPositive u.portfolio

/-- Formalisation of claim C2's average-cost clause at the spec's own
example (holding `("NVDA", 10)` at claimed average cost `150`, then adding
`5` shares at price `price`): it asserts that the post-state of
`add_stock_to_portfolio` determines an average cost for the holding equal
to `(10 * 150 + 5 * price) / 15`, i.e. that some observation `avg` of the
stored state yields the weighted average for every purchase price. -/
def claimC2AverageCost : Prop :=
  ∃ avg : Portfolio → ℚ,
    ∀ price : ℚ, 0 ≤ price →
      ∀ p', add_stock_to_portfolio [("NVDA", 10)] "NVDA" 5 = .ok p' →
        avg p' = (10 * 150 + 5 * price) / 15

theorem lookupQty_eq_none_iff {p : Portfolio} {s : String} :
    lookupQty p s = none ↔ s ∉ p.map Prod.fst := by
  induction p with
  | nil => simp [lookupQty]
  | cons e rest ih =>
      by_cases h : e.1 = s
      · simp [lookupQty, h]
      · simp [lookupQty, h, ih, Ne.symm h]

theorem lookupQty_append_left_none {p : Portfolio} {s : String}
    (h : lookupQty p s = none) (l : Portfolio) :
    lookupQty (p ++ l) s = lookupQty l s := by
  induction p with
  | nil => simp
  | cons e rest ih =>
      by_cases he : e.1 = s
      · simp [lookupQty, he] at h
      · simp only [lookupQty, he, if_false, List.cons_append]
        simp only [lookupQty, he, if_false] at h
        exact ih h

theorem lookupQty_map_adjust (p : Portfolio) (s : String) (f : Int → Int) :
    lookupQty (List.map (fun e => if e.1 = s then (e.1, f e.2) else e) p) s =
      (lookupQty p s).map f := by
  induction p with
  | nil => simp [lookupQty]
  | cons e rest ih =>
      by_cases h : e.1 = s
      · simp [lookupQty, h]
      · simp [lookupQty, h, ih]

theorem lookupQty_filter_self (p : Portfolio) (s : String) :
    lookupQty (List.filter (fun e => e.1 != s) p) s = none := by
  induction p with
  | nil => simp [lookupQty]
  | cons e rest ih =>
      simp only [List.filter_cons]
      by_cases h : e.1 = s
      · simpa [h] using ih
      · simpa [h, lookupQty] using ih

theorem lookupQty_pos {p : Portfolio} {s : String} {cur : Int}
    (hpos : HoldingsPositive p) (h : lookupQty p s = some cur) : 0 < cur := by
  induction p with
  | nil => simp [lookupQty] at h
  | cons e rest ih =>
      by_cases he : e.1 = s
      · simp only [lookupQty, he, if_true, Option.some.injEq] at h
        exact h ▸ hpos e (List.mem_cons_self e rest)
      · simp only [lookupQty, he, if_false] at h
        exact ih (fun e' he' => hpos e' (List.mem_cons_of_mem _ he')) h

theorem lookupQty_of_mem_nodup {p : Portfolio} {e : String × Int}
    (hnd : HoldingKeysNodup p) (hmem : e ∈ p) : lookupQty p e.1 = some e.2 := by
  induction p with
  | nil => simp at hmem
  | cons a rest ih =>
      rcases List.mem_cons.mp hmem with rfl | hmem'
      · simp [lookupQty]
      · have hnd' := hnd
        simp only [HoldingKeysNodup, List.map_cons, List.nodup_cons] at hnd'
        have hne : a.1 ≠ e.1 := by
          intro hcontra
          exact hnd'.1 (hcontra ▸ List.mem_map_of_mem Prod.fst hmem')
        simp only [lookupQty, hne, if_false]
        exact ih hnd'.2 hmem'

/-- C1: the claim asserts that `update_cash_balance(-150)` on a balance of
`100` fails with InsufficientFunds and leaves the balance unchanged.  The
source performs no balance check at all: the call succeeds (the operation
is total) and drives the balance to `-50`, which both differs from `100`
and is negative — so `cash_balance >= 0` is not preserved. -/
theorem claim_C1_counterexample :
    update_cash_balance ⟨100, []⟩ (-150) = ⟨-50, []⟩ ∧
    (update_cash_balance ⟨100, []⟩ (-150)).cash_balance ≠ 100 ∧
    (update_cash_balance ⟨100, []⟩ (-150)).cash_balance < 0 := by
  refine ⟨?_, ?_, ?_⟩
  · show UserProfile.mk (100 + (-150)) [] = ⟨-50, []⟩
    norm_num
  · show (100 : ℚ) + (-150) ≠ 100
    norm_num
  · show (100 : ℚ) + (-150) < 0
    norm_num

/-- C1 (amended): `update_cash_balance(amount)` performs no
InsufficientFunds check: it always succeeds and sets `cash_balance` to
`cash_balance + amount` while leaving holdings unchanged, so the balance
can become negative. -/
theorem claim_C1_amended (u : UserProfile) (amount : ℚ) :
    (update_cash_balance u amount).cash_balance = u.cash_balance + amount ∧
    (update_cash_balance u amount).portfolio = u.portfolio :=
  ⟨rfl, rfl⟩

/-- C3: for every ledger state with cash balance `c`, quantity `>= 1` and
fetched price `p`, if `quantity * p > c` then `buy_stock` fails with
InsufficientFunds.  The check precedes every database UPDATE in the
source, so the error result corresponds to a run with holdings and cash
unchanged (no partial mutation). -/
theorem claim_C3_buy_insufficient_funds (u : UserProfile) (symbol : String)
    (quantity : Int) (price : ℚ) (hq : 1 ≤ quantity)
    (hc : price * (quantity : ℚ) > u.cash_balance) :
    buy_stock u symbol quantity price = .error .insufficientFunds := by
  unfold buy_stock
  rw [if_neg (by omega)]
  exact if_pos hc

/-- Witness for C3 at the spec's buy-atomicity example: holding
`("NVDA", 10)`, cash `500`, quote price `200`, buying `5` shares costs
`1000 > 500`, so the call fails with InsufficientFunds. -/
theorem claim_C3_witness :
    buy_stock ⟨500, [("NVDA", 10)]⟩ "NVDA" 5 200 = .error .insufficientFunds :=
  claim_C3_buy_insufficient_funds ⟨500, [("NVDA", 10)]⟩ "NVDA" 5 200 (by norm_num)
    (by norm_num)

/-- C4: the claim asserts `clear_all_stock` resets the cash balance to 0.
The source only marks the portfolio rows deleted: from cash `100` and one
holding, the holdings become empty but the cash balance stays `100 ≠ 0`. -/
theorem claim_C4_counterexample :
    (clear_all_stock ⟨100, [("AAPL", 5)]⟩).portfolio = [] ∧
    (clear_all_stock ⟨100, [("AAPL", 5)]⟩).cash_balance = 100 ∧ (100 : ℚ) ≠ 0 :=
  ⟨rfl, rfl, by norm_num⟩

/-- C4 (amended): from every ledger state, `clear_all_stock()` results in
empty holdings, leaves `cash_balance` unchanged (it is not reset to 0),
has no preconditions, cannot fail (it is total), and is idempotent. -/
theorem claim_C4_amended (u : UserProfile) :
    (clear_all_stock u).portfolio = [] ∧
    (clear_all_stock u).cash_balance = u.cash_balance ∧
    clear_all_stock (clear_all_stock u) = clear_all_stock u :=
  ⟨rfl, rfl, rfl⟩

/-- C10: constructing a `Stock` with a negative price, a negative
price_change, or a negative pe_ratio raises ValueError; in particular a
stock whose price declined since yesterday (negative daily change) cannot
be represented by the `Stock` type. -/
theorem claim_C10_stock_validation (symbol name : String)
    (price price_change pe_ratio : ℚ)
    (h : price < 0 ∨ price_change < 0 ∨ pe_ratio < 0) :
    ∃ msg, Stock.make symbol name price price_change pe_ratio = .error msg := by
  unfold Stock.make
  by_cases h1 : price < 0
  · rw [if_pos h1]; exact ⟨_, rfl⟩
  · rw [if_neg h1]
    by_cases h2 : price_change < 0
    · rw [if_pos h2]; exact ⟨_, rfl⟩
    · rw [if_neg h2]
      have h3 : pe_ratio < 0 := by tauto
      rw [if_pos h3]; exact ⟨_, rfl⟩

/-- Witness for C10: a stock that declined by one dollar since yesterday
(price change `-1`) is rejected by the `Stock` constructor. -/
theorem claim_C10_witness :
    ∃ msg, Stock.make "AAPL" "Apple Inc" 100 (-1) 10 = .error msg :=
  claim_C10_stock_validation "AAPL" "Apple Inc" 100 (-1) 10
    (Or.inr (Or.inl (by norm_num)))

/-- C2: the claim asserts `add_stock_to_portfolio(s, quantity, price)` sets
the holding's average cost to `(q0*p0 + quantity*price) / (q0+quantity)`.
The source's `add_stock_to_portfolio(user_id, symbol, quantity)` takes no
price and the stored holding is a bare quantity, so the post-state is the
same for every purchase price: no observation of the stored state can
equal the price-dependent weighted average.  At the spec's own example
(`("NVDA", 10)` at claimed cost `150`, adding `5` shares), any such
observation would have to equal both `(10*150 + 5*180)/15 = 160` (price
`180`) and `(10*150 + 5*0)/15 = 100` (price `0`) on the identical
post-state `[("NVDA", 15)]` — a contradiction. -/
theorem claim_C2_counterexample : ¬ claimC2AverageCost := by
  rintro ⟨avg, h⟩
  have hok : add_stock_to_portfolio [("NVDA", 10)] "NVDA" 5 = .ok [("NVDA", 15)] := rfl
  have h180 := h 180 (by norm_num) [("NVDA", 15)] hok
  have h0 := h 0 (by norm_num) [("NVDA", 15)] hok
  have hcontra : (10 * 150 + 5 * (180 : ℚ)) / 15 = (10 * 150 + 5 * 0) / 15 :=
    h180.symm.trans h0
  norm_num at hcontra

/-- C2 (amended): `add_stock_to_portfolio(user_id, symbol, quantity)` takes
no price and tracks no average cost; for every quantity `>= 1`, if the
symbol is present with existing quantity `q0` it sets the holding's
quantity to `q0 + quantity`, and if the symbol is absent it inserts the
holding with the given quantity. -/
theorem claim_C2_amended (p : Portfolio) (s : String) (q : Int) (hq : 1 ≤ q) :
    (∀ q0, lookupQty p s = some q0 →
      add_stock_to_portfolio p s q =
        .ok (List.map (fun e => if e.1 = s then (e.1, q0 + q) else e) p) ∧
      lookupQty (List.map (fun e => if e.1 = s then (e.1, q0 + q) else e) p) s =
        some (q0 + q)) ∧
    (lookupQty p s = none →
      add_stock_to_portfolio p s q = .ok (p ++ [(s, q)]) ∧
      lookupQty (p ++ [(s, q)]) s = some q) := by
  constructor
  · intro q0 h
    constructor
    · unfold add_stock_to_portfolio
      rw [if_neg (by omega), h]
    · have hadj := lookupQty_map_adjust p s (fun _ => q0 + q)
      rw [h] at hadj
      exact hadj
  · intro h
    constructor
    · unfold add_stock_to_portfolio
      rw [if_neg (by omega), h]
    · rw [lookupQty_append_left_none h]
      simp [lookupQty]

/-- Witness for C2 (amended) at the spec's weighted-average example inputs:
holding `("NVDA", 10)`, adding `5` shares yields quantity `15`. -/
theorem claim_C2_witness :
    add_stock_to_portfolio [("NVDA", 10)] "NVDA" 5 = .ok [("NVDA", 15)] ∧
    lookupQty [("NVDA", 15)] "NVDA" = some 15 := by
  have h := (claim_C2_amended [("NVDA", 10)] "NVDA" 5 (by norm_num)).1 10 rfl
  exact ⟨h.1, h.2⟩

/-- C6: `remove_stock_from_holding(symbol, quantity)` fails with NotFound
when the symbol is absent from holdings, with InvalidArgument when
`quantity < 1`, and with InsufficientQuantity when `quantity` exceeds the
held quantity.  Every raise precedes every UPDATE in the source, so each
error result corresponds to a run with holdings unchanged.  (When the
symbol is absent and also `quantity < 1`, the source checks the quantity
first and reports InvalidArgument; the hypotheses below make the three
cases disjoint accordingly.) -/
theorem claim_C6_remove_failures (p : Portfolio) (s : String) (q : Int) :
    (q < 1 → remove_stock_from_holding p s q = .error .invalidArgument) ∧
    (1 ≤ q → lookupQty p s = none →
      remove_stock_from_holding p s q = .error (.notFound s)) ∧
    (∀ cur, 1 ≤ q → lookupQty p s = some cur → cur < q →
      remove_stock_from_holding p s q = .error (.insufficientQuantity q cur)) := by
  refine ⟨?_, ?_, ?_⟩
  · intro h
    unfold remove_stock_from_holding
    rw [if_pos h]
  · intro hq h
    unfold remove_stock_from_holding
    rw [if_neg (by omega), h]
  · intro cur hq h hcur
    unfold remove_stock_from_holding
    rw [if_neg (by omega), h]
    exact if_pos hcur

/-- Witness for C6 at the spec's example holding `("AAPL", 2)`: removing
`0` shares is InvalidArgument, removing from an absent symbol is NotFound,
and removing `5 > 2` shares is InsufficientQuantity. -/
theorem claim_C6_witness :
    remove_stock_from_holding [("AAPL", 2)] "AAPL" 0 = .error .invalidArgument ∧
    remove_stock_from_holding [("AAPL", 2)] "TSLA" 1 = .error (.notFound "TSLA") ∧
    remove_stock_from_holding [("AAPL", 2)] "AAPL" 5 =
      .error (.insufficientQuantity 5 2) :=
  ⟨(claim_C6_remove_failures [("AAPL", 2)] "AAPL" 0).1 (by norm_num),
   (claim_C6_remove_failures [("AAPL", 2)] "TSLA" 1).2.1 (by norm_num) rfl,
   (claim_C6_remove_failures [("AAPL", 2)] "AAPL" 5).2.2 2 (by norm_num) rfl
     (by norm_num)⟩

/-- C8: `fetch_historical_data(symbol, start_date, end_date)` fails
whenever a date does not pass the YYYY-MM-DD validation, fails when the
symbol is invalid (the upstream body carries an "Error Message"), and
fails when the upstream time series for an otherwise-valid symbol is
empty; it never returns successfully in any of these three cases. -/
theorem claim_C8_fetch_historical_failures (dateOk : String → Bool)
    (symbol start_date end_date : String) (resp : ApiResponse) :
    ((dateOk start_date = false ∨ dateOk end_date = false) →
      ∃ e, fetch_historical_data dateOk symbol start_date end_date resp = .error e) ∧
    (resp.has_error_message = true →
      ∃ e, fetch_historical_data dateOk symbol start_date end_date resp = .error e) ∧
    (resp.time_series = [] →
      ∃ e, fetch_historical_data dateOk symbol start_date end_date resp = .error e) := by
  unfold fetch_historical_data
  refine ⟨?_, ?_, ?_⟩ <;> intro h <;> split_ifs <;>
    first
      | exact ⟨_, rfl⟩
      | simp_all

/-- Witness for C8: one concrete failing run per failure mode — a malformed
start date, an upstream invalid-symbol error body, and an empty upstream
time series. -/
theorem claim_C8_witness :
    (∃ e, fetch_historical_data (fun _ => false) "IBM" "01-02-2024" "2024-01-05"
      ⟨200, false, [("2024-01-03", ⟨none, none, none, none, none⟩)]⟩ = .error e) ∧
    (∃ e, fetch_historical_data (fun _ => true) "WRONG" "2024-01-01" "2024-01-05"
      ⟨200, true, [("2024-01-03", ⟨none, none, none, none, none⟩)]⟩ = .error e) ∧
    (∃ e, fetch_historical_data (fun _ => true) "IBM" "2024-01-01" "2024-01-05"
      ⟨200, false, []⟩ = .error e) :=
  ⟨(claim_C8_fetch_historical_failures (fun _ => false) "IBM" "01-02-2024" "2024-01-05"
      ⟨200, false, [("2024-01-03", ⟨none, none, none, none, none⟩)]⟩).1 (Or.inl rfl),
   (claim_C8_fetch_historical_failures (fun _ => true) "WRONG" "2024-01-01" "2024-01-05"
      ⟨200, true, [("2024-01-03", ⟨none, none, none, none, none⟩)]⟩).2.1 rfl,
   (claim_C8_fetch_historical_failures (fun _ => true) "IBM" "2024-01-01" "2024-01-05"
      ⟨200, false, []⟩).2.2 rfl⟩

/-- C9: every record returned by a successful
`fetch_historical_data(symbol, start_date, end_date)` has a date in the
inclusive range `start_date <= date <= end_date` (lexicographic string
comparison, as in the source); upstream days outside the range are
filtered out. -/
theorem claim_C9_dates_within_range (dateOk : String → Bool)
    (symbol start_date end_date : String) (resp : ApiResponse)
    (recs : List HistoricalRecord) (r : HistoricalRecord)
    (hok : fetch_historical_data dateOk symbol start_date end_date resp = .ok recs)
    (hr : r ∈ recs) :
    strLe start_date r.date = true ∧ strLe r.date end_date = true := by
  unfold fetch_historical_data at hok
  split_ifs at hok
  injection hok with hok'
  subst hok'
  obtain ⟨e, he, rfl⟩ := List.mem_map.mp hr
  have hf := (List.mem_filter.mp he).2
  simp only [Bool.and_eq_true] at hf
  exact ⟨hf.1, hf.2⟩

/-- Witness for C9: a concrete successful fetch whose single returned
record dated 2024-01-03 lies within the requested range. -/
theorem claim_C9_witness :
    strLe "2024-01-01"
      (HistoricalRecord.mk "2024-01-03" "N/A" "N/A" "N/A" "N/A" "N/A").date = true ∧
    strLe (HistoricalRecord.mk "2024-01-03" "N/A" "N/A" "N/A" "N/A" "N/A").date
      "2024-12-31" = true :=
  claim_C9_dates_within_range (fun _ => true) "IBM" "2024-01-01" "2024-12-31"
    ⟨200, false, [("2024-01-03", ⟨none, none, none, none, none⟩)]⟩
    [HistoricalRecord.mk "2024-01-03" "N/A" "N/A" "N/A" "N/A" "N/A"]
    (HistoricalRecord.mk "2024-01-03" "N/A" "N/A" "N/A" "N/A" "N/A")
    (by rfl) (List.mem_singleton.mpr rfl)

theorem foldl_add_stock_to_holding (stocks : List (String × Int)) :
    ∀ u : UserProfile, (stocks.map Prod.fst).Nodup →
      (∀ e ∈ stocks, lookupQty u.portfolio e.1 = none) →
      stocks.foldl (fun acc e => add_stock_to_holding acc e.1 e.2) u =
        ⟨u.cash_balance, u.portfolio ++ stocks⟩ := by
  induction stocks with
  | nil =>
      intro u _ _
      simp
  | cons e rest ih =>
      intro u hnd habs
      simp only [List.foldl_cons]
      have hnone : lookupQty u.portfolio e.1 = none := habs e (List.mem_cons_self e rest)
      have hstep : add_stock_to_holding u e.1 e.2 =
          ⟨u.cash_balance, u.portfolio ++ [(e.1, e.2)]⟩ := by
        unfold add_stock_to_holding
        rw [hnone]
      rw [hstep]
      have hnd' : (rest.map Prod.fst).Nodup := (List.nodup_cons.mp (by simpa using hnd)).2
      have hne : e.1 ∉ rest.map Prod.fst := (List.nodup_cons.mp (by simpa using hnd)).1
      have habs' : ∀ e' ∈ rest,
          lookupQty ((⟨u.cash_balance, u.portfolio ++ [(e.1, e.2)]⟩ :
            UserProfile).portfolio) e'.1 = none := by
        intro e' he'
        have h1 : lookupQty u.portfolio e'.1 = none :=
          habs e' (List.mem_cons_of_mem _ he')
        show lookupQty (u.portfolio ++ [(e.1, e.2)]) e'.1 = none
        rw [lookupQty_append_left_none h1]
        have hne' : e.1 ≠ e'.1 := fun hcontra =>
          hne (hcontra ▸ List.mem_map_of_mem Prod.fst he')
        simp [lookupQty, hne']
      rw [ih ⟨u.cash_balance, u.portfolio ++ [(e.1, e.2)]⟩ hnd' habs']
      simp

/-- C5: exporting a ledger's snapshot `(holdings, cash_balance)` at logout
(`logout_user` stores `get_portfolio()` and `cash_balance` in the session
document) and importing that snapshot at login (`login_user` replays it
into the profile) into a fresh ledger (`cash 0`, no holdings) reproduces
an identical `(holdings, cash_balance)`.  The hypothesis is the data-model
well-formedness that each symbol has one holding entry; a session document
must already exist for the user, as `logout_user` requires
(`upsert=False`). -/
theorem claim_C5_snapshot_round_trip (L : UserProfile) (doc : SessionDoc)
    (hnd : HoldingKeysNodup L.portfolio) :
    ∃ doc' : SessionDoc,
      logout_user (some doc) L = .ok (some doc', clear_all_stock L) ∧
      doc'.current_stock_holding = get_portfolio L ∧
      doc'.cash_balance = L.cash_balance ∧
      (login_user (some doc') ⟨0, []⟩).2.portfolio = L.portfolio ∧
      (login_user (some doc') ⟨0, []⟩).2.cash_balance = L.cash_balance := by
  refine ⟨⟨get_portfolio L, L.cash_balance⟩, rfl, rfl, rfl, ?_, ?_⟩
  all_goals
    have hfold := foldl_add_stock_to_holding L.portfolio ⟨0, []⟩ hnd (fun e _ => rfl)
  · show (update_cash_balance
        (L.portfolio.foldl (fun acc e => add_stock_to_holding acc e.1 e.2)
          (clear_all_stock ⟨0, []⟩)) L.cash_balance).portfolio = L.portfolio
    rw [show clear_all_stock ⟨0, []⟩ = (⟨0, []⟩ : UserProfile) from rfl, hfold]
    rfl
  · show (update_cash_balance
        (L.portfolio.foldl (fun acc e => add_stock_to_holding acc e.1 e.2)
          (clear_all_stock ⟨0, []⟩)) L.cash_balance).cash_balance = L.cash_balance
    rw [show clear_all_stock ⟨0, []⟩ = (⟨0, []⟩ : UserProfile) from rfl, hfold]
    show (0 : ℚ) + L.cash_balance = L.cash_balance
    exact zero_add _

/-- Witness for C5: a concrete round trip from the ledger with cash `250`
and holdings `AAPL -> 3`, `NVDA -> 1`. -/
theorem claim_C5_witness :
    ∃ doc' : SessionDoc,
      logout_user (some ⟨[], 0⟩) ⟨250, [("AAPL", 3), ("NVDA", 1)]⟩ =
        .ok (some doc', clear_all_stock ⟨250, [("AAPL", 3), ("NVDA", 1)]⟩) ∧
      doc'.current_stock_holding = get_portfolio ⟨250, [("AAPL", 3), ("NVDA", 1)]⟩ ∧
      doc'.cash_balance = (⟨250, [("AAPL", 3), ("NVDA", 1)]⟩ : UserProfile).cash_balance ∧
      (login_user (some doc') ⟨0, []⟩).2.portfolio =
        (⟨250, [("AAPL", 3), ("NVDA", 1)]⟩ : UserProfile).portfolio ∧
      (login_user (some doc') ⟨0, []⟩).2.cash_balance =
        (⟨250, [("AAPL", 3), ("NVDA", 1)]⟩ : UserProfile).cash_balance :=
  claim_C5_snapshot_round_trip ⟨250, [("AAPL", 3), ("NVDA", 1)]⟩ ⟨[], 0⟩
    (by unfold HoldingKeysNodup; decide)

theorem keys_map_update (p : Portfolio) (s : String) (g : String × Int → Int) :
    (List.map (fun e => if e.1 = s then (e.1, g e) else e) p).map Prod.fst =
      p.map Prod.fst := by
  induction p with
  | nil => rfl
  | cons e rest ih =>
      by_cases h : e.1 = s <;> simp [h, ih]

theorem keysNodup_map_update {p : Portfolio} {s : String} (g : String × Int → Int)
    (hnd : HoldingKeysNodup p) :
    HoldingKeysNodup (List.map (fun e => if e.1 = s then (e.1, g e) else e) p) := by
  unfold HoldingKeysNodup at hnd ⊢
  rw [keys_map_update]
  exact hnd

theorem holdingsPositive_map_update {p : Portfolio} {s : String}
    (g : String × Int → Int) (hpos : HoldingsPositive p)
    (hg : ∀ e ∈ p, e.1 = s → 0 < g e) :
    HoldingsPositive (List.map (fun e => if e.1 = s then (e.1, g e) else e) p) := by
  intro e' he'
  obtain ⟨e, he, rfl⟩ := List.mem_map.mp he'
  by_cases h : e.1 = s
  · simpa [h] using hg e he h
  · simpa [h] using hpos e he

theorem keysNodup_filter {p : Portfolio} (s : String) (hnd : HoldingKeysNodup p) :
    HoldingKeysNodup (List.filter (fun e => e.1 != s) p) := by
  unfold HoldingKeysNodup at hnd ⊢
  exact List.Nodup.sublist ((List.filter_sublist p).map Prod.fst) hnd

theorem holdingsPositive_filter {p : Portfolio} (s : String)
    (hpos : HoldingsPositive p) :
    HoldingsPositive (List.filter (fun e => e.1 != s) p) :=
  fun e he => hpos e (List.mem_of_mem_filter he)

theorem keysNodup_append {p : Portfolio} {s : String} {q : Int}
    (hnd : HoldingKeysNodup p) (habs : s ∉ p.map Prod.fst) :
    HoldingKeysNodup (p ++ [(s, q)]) := by
  unfold HoldingKeysNodup at hnd ⊢
  rw [List.map_append]
  rw [List.nodup_append]
  refine ⟨hnd, List.nodup_singleton s, ?_⟩
  intro a ha hb
  simp only [List.map_cons, List.map_nil, List.mem_singleton] at hb
  exact habs (hb ▸ ha)

theorem inv_add_stock {p p' : Portfolio} {s : String} {q : Int}
    (hnd : HoldingKeysNodup p) (hpos : HoldingsPositive p)
    (h : add_stock_to_portfolio p s q = .ok p') :
    HoldingKeysNodup p' ∧ HoldingsPositive p' := by
  unfold add_stock_to_portfolio at h
  split_ifs at h with hq0
  split at h
  · rename_i q0 hlk
    injection h with h'
    subst h'
    refine ⟨keysNodup_map_update (fun _ => q0 + q) hnd, ?_⟩
    refine holdingsPositive_map_update (fun _ => q0 + q) hpos ?_
    intro e he hes
    have hq0pos : 0 < q0 := lookupQty_pos hpos hlk
    show 0 < q0 + q
    omega
  · rename_i hlk
    injection h with h'
    subst h'
    constructor
    · exact keysNodup_append hnd (lookupQty_eq_none_iff.mp hlk)
    · intro e he
      rcases List.mem_append.mp he with h1 | h1
      · exact hpos e h1
      · rw [List.mem_singleton.mp h1]
        show 0 < q
        omega

theorem inv_remove_stock {p p' : Portfolio} {s : String} {q : Int}
    (hnd : HoldingKeysNodup p) (hpos : HoldingsPositive p)
    (h : remove_stock_from_holding p s q = .ok p') :
    HoldingKeysNodup p' ∧ HoldingsPositive p' := by
  unfold remove_stock_from_holding at h
  split_ifs at h with hq1
  split at h
  · exact Except.noConfusion h
  · rename_i cur hlk
    split_ifs at h with hcur heq
    · injection h with h'
      subst h'
      exact ⟨keysNodup_filter s hnd, holdingsPositive_filter s hpos⟩
    · injection h with h'
      subst h'
      refine ⟨keysNodup_map_update (fun e => e.2 - q) hnd, ?_⟩
      refine holdingsPositive_map_update (fun e => e.2 - q) hpos ?_
      intro e he hes
      have hecur : lookupQty p s = some e.2 := hes ▸ lookupQty_of_mem_nodup hnd he
      have he2 : e.2 = cur := Option.some.inj (hecur.symm.trans hlk)
      show 0 < e.2 - q
      omega

/-- C7: after every ledger operation (add, remove, update cash, buy, sell,
clear), every symbol present in holdings has quantity `> 0` (and one entry
per symbol) — in this map embedding, presence iff positive quantity; and
`remove_stock_from_holding` of exactly the held quantity deletes the entry
entirely, leaving no zero-quantity placeholder. -/
theorem claim_C7_presence_invariant :
    (∀ (u u' : UserProfile) (op : LedgerOp),
      LedgerInv u → applyOp u op = .ok u' → LedgerInv u') ∧
    (∀ (u : UserProfile) (s : String) (cur : Int), LedgerInv u →
      lookupQty u.portfolio s = some cur →
      ∃ p', remove_stock_from_holding u.portfolio s cur = .ok p' ∧
        lookupQty p' s = none) := by
  constructor
  · intro u u' op hinv happly
    obtain ⟨hnd, hpos⟩ := hinv
    cases op with
    | addStock s q =>
        simp only [applyOp] at happly
        cases hadd : add_stock_to_portfolio u.portfolio s q with
        | error e =>
            rw [hadd] at happly
            exact Except.noConfusion happly
        | ok p' =>
            rw [hadd] at happly
            simp only [Except.map] at happly
            injection happly with h'
            subst h'
            exact ⟨(inv_add_stock hnd hpos hadd).1, (inv_add_stock hnd hpos hadd).2⟩
    | removeStock s q =>
        simp only [applyOp] at happly
        cases hrem : remove_stock_from_holding u.portfolio s q with
        | error e =>
            rw [hrem] at happly
            exact Except.noConfusion happly
        | ok p' =>
            rw [hrem] at happly
            simp only [Except.map] at happly
            injection happly with h'
            subst h'
            exact ⟨(inv_remove_stock hnd hpos hrem).1, (inv_remove_stock hnd hpos hrem).2⟩
    | updateCash a =>
        simp only [applyOp] at happly
        injection happly with h'
        subst h'
        exact ⟨hnd, hpos⟩
    | buy s q pr =>
        simp only [applyOp, buy_stock] at happly
        split_ifs at happly with h1 h2
        cases hadd : add_stock_to_portfolio u.portfolio s q with
        | error e =>
            rw [hadd] at happly
            exact Except.noConfusion happly
        | ok p' =>
            rw [hadd] at happly
            injection happly with h'
            subst h'
            exact ⟨(inv_add_stock hnd hpos hadd).1, (inv_add_stock hnd hpos hadd).2⟩
    | sell s q pr =>
        simp only [applyOp, sell_stock] at happly
        split_ifs at happly with h1
        split at happly
        · exact Except.noConfusion happly
        · rename_i cur hlk
          split_ifs at happly with h2
          split at happly
          · rename_i p' hrem
            injection happly with h'
            subst h'
            exact ⟨(inv_remove_stock hnd hpos hrem).1,
              (inv_remove_stock hnd hpos hrem).2⟩
          · exact Except.noConfusion happly
    | clear =>
        simp only [applyOp] at happly
        injection happly with h'
        subst h'
        exact ⟨List.nodup_nil, fun e he => absurd he (List.not_mem_nil e)⟩
  · intro u s cur hinv hlk
    obtain ⟨hnd, hpos⟩ := hinv
    have hcurpos : 0 < cur := lookupQty_pos hpos hlk
    refine ⟨List.filter (fun e => e.1 != s) u.portfolio, ?_,
      lookupQty_filter_self _ _⟩
    unfold remove_stock_from_holding
    rw [if_neg (by omega : ¬ cur < 1), hlk]
    dsimp only
    rw [if_neg (by omega : ¬ cur < cur), if_pos rfl]

/-- Witness for C7: the invariant survives buying 5 NVDA shares at price
`100` from the ledger with cash `1000` and holding `("AAPL", 2)`, and
removing all `2` AAPL shares deletes the AAPL entry entirely (the spec's
remove-all example shape). -/
theorem claim_C7_witness :
    LedgerInv ⟨500, [("AAPL", 2), ("NVDA", 5)]⟩ ∧
    (∃ p', remove_stock_from_holding
        (⟨500, [("AAPL", 2), ("NVDA", 5)]⟩ : UserProfile).portfolio "AAPL" 2 =
          .ok p' ∧ lookupQty p' "AAPL" = none) :=
  have hinv : LedgerInv ⟨1000, [("AAPL", 2)]⟩ :=
    ⟨by unfold HoldingKeysNodup; decide, by unfold HoldingsPositive; decide⟩
  have hadd : add_stock_to_portfolio [("AAPL", 2)] "NVDA" 5 =
      .ok [("AAPL", 2), ("NVDA", 5)] := by rfl
  have happly : applyOp ⟨1000, [("AAPL", 2)]⟩ (.buy "NVDA" 5 100) =
      .ok ⟨500, [("AAPL", 2), ("NVDA", 5)]⟩ := by
    show buy_stock ⟨1000, [("AAPL", 2)]⟩ "NVDA" 5 100 =
      .ok ⟨500, [("AAPL", 2), ("NVDA", 5)]⟩
    unfold buy_stock
    dsimp only
    split_ifs with h1 h2
    · norm_num at h1
    · norm_num at h2
    · rw [hadd]
      dsimp only
      norm_num
  have hinv' := claim_C7_presence_invariant.1 ⟨1000, [("AAPL", 2)]⟩
    ⟨500, [("AAPL", 2), ("NVDA", 5)]⟩ (.buy "NVDA" 5 100) hinv happly
  ⟨hinv', claim_C7_presence_invariant.2 ⟨500, [("AAPL", 2), ("NVDA", 5)]⟩ "AAPL" 2
    hinv' (by rfl)⟩

end StockTrading
